import Mathlib

/-!
Verification development for the retry-lit repository.

The repository implements retry-with-backoff for a single fallible
asynchronous operation.  The development below is a shallow embedding of
the two source modules:

* src/generate-timeouts.ts : the pure schedule generator;
* src/index.ts : the retry engine (classification, observer invocation,
  time-budget accounting, representative-failure selection).

JavaScript numbers are modelled as rationals, with Infinity modelled by
an Option (none = Infinity) where the source can hold Infinity
(the maxTimeout option and the derived maxRetryTime).  Math.round is
JavaScript rounding (half toward positive infinity).  The comparison
x >= undefined, which arises for maxRetryTime when the schedule is
empty, is false in JavaScript (NaN comparison); it is modelled by an
explicit match on the Option.  The engine's wall-clock is modelled by
letting the caller supply a duration for each attempt (operation plus
observer time); setTimeout delays add to the clock when the scheduled
retry fires.  A thrown JavaScript error object is modelled by the
inductive JSError; object identity of engine-created errors is modelled
with a numeric tag.

The counts dictionary of mainError is a plain JavaScript object, so the
bracket lookup counts[message] walks the prototype chain: when message
names an Object.prototype property (toString, constructor, valueOf, ...)
the first lookup returns an inherited function or object, the + 1 turns
the count into a non-numeric string, and count >= mainErrorCount is a
number-string comparison that is always false.  A failure with such a
message therefore never becomes the tracked main error; the embedding
models this with the protoColliding guard in stepS.
-/

/-- Underlying data of a JavaScript error object: its message and a tag
standing in for object identity. -/
structure BaseError where
  message : String
  tag : Nat := 0
deriving DecidableEq, Repr

/-- A structured JavaScript error value, as classified by the engine:
a plain Error (or any subclass other than the two below), a TypeError,
or an AbortError wrapping an original error (class AbortError in
src/index.ts; the wrapper's message is copied from the original). -/
inductive JSError where
  | plain (b : BaseError)
  | typeError (b : BaseError)
  | abortError (original : JSError)
deriving DecidableEq, Repr

/-- The message of a JSError; an AbortError's message is the message of
its wrapped original error, as set by the AbortError constructor. -/
def JSError.message : JSError → String
  | .plain b => b.message
  | .typeError b => b.message
  | .abortError o => o.message

/-- AttemptError (src/index.ts): the decorated failure value handed to
the onFailedAttempt observer. -/
structure AttemptError where
  name : String
  message : String
  attemptNumber : Nat
  retriesLeft : Int
deriving DecidableEq, Repr

/-- The AttemptError constructor followed by the field assignments made
by the engine: name is always "AttemptError". -/
def mkAttemptError (message : String) (attemptNumber : Nat)
    (retriesLeft : Int) : AttemptError :=
  ⟨"AttemptError", message, attemptNumber, retriesLeft⟩

/-- networkErrorMsgs (src/index.ts): the known transient network-error
messages. -/
def networkErrorMsgs : List String :=
  [ "Failed to fetch"
  , "NetworkError when attempting to fetch resource."
  , "The Internet connection appears to be offline."
  , "Network request failed" ]

/-- isNetworkError (src/index.ts). -/
def isNetworkError (errorMessage : String) : Bool :=
  networkErrorMsgs.contains errorMessage

/-- JavaScript Math.round on a rational: half-values round toward
positive infinity. -/
def jround (q : ℚ) : ℤ := (q + 1 / 2).floor

/-- JavaScript Math.min against a possibly-infinite cap (none models
Infinity, for which Math.min is the identity). -/
def jsMinCap (t : ℚ) (mx : Option ℚ) : ℚ :=
  match mx with
  | none => t
  | some m => min t m

/-- generateTimeouts (src/generate-timeouts.ts): for i in 0..retries-1,
entry i is Math.min(Math.round(Math.max(min, 1) * factor ^ i), max). -/
def generateTimeouts (retries : Nat := 5) (mn : ℚ := 10)
    (mx : Option ℚ := none) (factor : ℚ := 6) : List ℚ :=
  (List.range retries).map fun i =>
    jsMinCap (jround (max mn 1 * factor ^ i)) mx

/-- Property names of Object.prototype (ECMAScript, including the Annex
B accessors), visible through bracket lookup on a fresh plain object. -/
def objectProtoProps : List String :=
  [ "constructor", "hasOwnProperty", "isPrototypeOf"
  , "propertyIsEnumerable", "toLocaleString", "toString", "valueOf"
  , "__defineGetter__", "__defineSetter__", "__lookupGetter__"
  , "__lookupSetter__", "__proto__" ]

/-- Whether a message collides with an inherited property of the plain
counts object, making counts[message] yield a non-numeric value. -/
def protoColliding (m : String) : Bool := objectProtoProps.contains m

/-- State of the mainError for-loop (src/index.ts): the counts
dictionary, the best error so far, and its count. -/
def MState : Type := (String → Nat) × Option JSError × Nat

/-- One iteration of the mainError for-loop.  For a message colliding
with an Object.prototype property, the prototype-chain lookup makes the
computed count a non-numeric string, the >= comparison is always false,
and the stored junk never turns numeric, so the iteration changes
nothing observable: the tracked best error, its count, and the numeric
counts of all other keys stay as they are.  For any other message the
lookup misses or returns the stored number, the count increments, and
the failure takes over as best error when its count is greater than or
equal to the best count so far. -/
def stepS (s : MState) (e : JSError) : MState :=
  if protoColliding e.message then s
  else
    let c := s.1 e.message + 1
    let counts := fun m => if m = e.message then c else s.1 m
    if c ≥ s.2.2 then (counts, some e, c) else (counts, s.2.1, s.2.2)

/-- mainError (src/index.ts): returns null for an empty accumulator,
otherwise runs the counting loop over the accumulated errors and
returns the tracked best error. -/
def mainError (errors : List JSError) : Option JSError :=
  if errors.isEmpty then none
  else (errors.foldl stepS (fun _ => 0, none, 0)).2.1

/-- Number of errors in a list carrying a given message. -/
def msgCount (l : List JSError) (m : String) : Nat :=
  l.countP fun e => decide (e.message = m)

/-- The largest per-message occurrence count attained in the list. -/
def maxMsgCount (l : List JSError) : Nat :=
  (l.map fun e => msgCount l e.message).foldr max 0

/-- Modelled from the spec's description of representative-failure
selection: group by exact message string counting occurrences and
return the failure with the highest count, ties preferring the most
recently seen failure; none for an empty accumulator.  Stated as: the
latest element whose message attains the maximal occurrence count. -/
def mainErrorSpec (l : List JSError) : Option JSError :=
  l.reverse.find? fun e => decide (msgCount l e.message = maxMsgCount l)

/-- The outcome of one invocation of the caller-supplied operation: a
value, a thrown non-error value (with its string representation), or a
thrown structured error. -/
inductive OpResult (α : Type) where
  | ok (v : α)
  | nonError (s : String)
  | err (e : JSError)
deriving DecidableEq, Repr

/-- What the engine's attempt callback does with a structured failure,
in source branch order: AbortError rejects with the wrapped
originalError; a TypeError whose message is not a known network error
rejects with the failure as-is; everything else proceeds to the
observer and the retry scheduler. -/
inductive FailureAction where
  | rejectWith (v : JSError)
  | proceed
deriving DecidableEq, Repr

/-- The classification branches of the attempt callback
(src/index.ts). -/
def classifyFailure (e : JSError) : FailureAction :=
  match e with
  | .abortError o => .rejectWith o
  | .typeError b =>
      if isNetworkError b.message then .proceed
      else .rejectWith (.typeError b)
  | .plain _ => .proceed

/-- A value the returned promise can be rejected with: the fresh
TypeError built for a thrown non-error, a structured error value, or
null (the result of mainError on an empty accumulator). -/
inductive RejectVal where
  | typeErrorNonError (message : String)
  | val (e : JSError)
  | nullRej
deriving DecidableEq, Repr

/-- How the returned promise settles. -/
inductive SettleVal (α : Type) where
  | resolved (v : α)
  | rejected (r : RejectVal)
deriving DecidableEq, Repr

/-- Reject with the result of mainError: JavaScript reject(null) when
the accumulator was empty. -/
def jsReject (m : Option JSError) : RejectVal :=
  match m with
  | some e => .val e
  | none => .nullRej

/-- Observable result of running the engine: how the promise settles,
how many times the operation was invoked, the AttemptErrors passed to
the observer in order, the final error accumulator, and whether the
maximum-retry-time branch executed. -/
structure RunResult (α : Type) where
  settle : SettleVal α
  invocations : Nat
  observerCalls : List AttemptError
  finalErrors : List JSError
  expired : Bool
deriving DecidableEq, Repr

/-- The synthetic marker error created by new Error in the
timeout-expired branch; the tag models its object identity. -/
def markerE (tag : Nat) : JSError :=
  .plain ⟨"Maximum retry timeout reached", tag⟩

/-- The comparison currentTime - operationStart >= maxRetryTime from
the inner retry function: when the schedule was empty maxRetryTime is
undefined and the JavaScript comparison is false. -/
def expiredCheck (maxRetryTime : Option ℚ) (elapsed : ℚ) : Bool :=
  match maxRetryTime with
  | none => false
  | some m => decide (m ≤ elapsed)

/-- The attempt callback together with the inner retry scheduler of
src/index.ts, one attempt per call.  Arguments after the environment:
the remaining schedule, the current attempt number, the error
accumulator, the current wall-clock time (operationStart is 0), the
observer-call log, and the number of operation invocations so far. -/
def runAux {α : Type} (input : Nat → OpResult α)
    (obs : AttemptError → Option JSError) (opDur : Nat → ℚ)
    (retries : Nat) (maxRetryTime : Option ℚ) (mtag : Nat) :
    List ℚ → Nat → List JSError → ℚ → List AttemptError → Nat →
    RunResult α
  | remaining, n, errors, now, log, invs =>
    let now1 := now + opDur n
    match input n with
    | .ok v => ⟨.resolved v, invs + 1, log, errors, false⟩
    | .nonError s =>
        ⟨.rejected (.typeErrorNonError
            ("Non-error was thrown: \"" ++ s ++
              "\". You should only throw errors.")),
          invs + 1, log, errors, false⟩
    | .err e =>
      match classifyFailure e with
      | .rejectWith v => ⟨.rejected (.val v), invs + 1, log, errors, false⟩
      | .proceed =>
        let ae := mkAttemptError e.message n
          ((retries : ℤ) - ((n : ℤ) - 1))
        match obs ae with
        | some v =>
            ⟨.rejected (.val v), invs + 1, log ++ [ae], errors, false⟩
        | none =>
          if expiredCheck maxRetryTime now1 then
            ⟨.rejected (jsReject (mainError
                (markerE mtag :: (errors ++ [e])))),
              invs + 1, log ++ [ae],
              markerE mtag :: (errors ++ [e]), true⟩
          else
            match remaining with
            | [] =>
                ⟨.rejected (jsReject (mainError (errors ++ [e]))),
                  invs + 1, log ++ [ae], errors ++ [e], false⟩
            | t :: rest =>
                runAux input obs opDur retries maxRetryTime mtag
                  rest (n + 1) (errors ++ [e]) (now1 + t)
                  (log ++ [ae]) (invs + 1)

/-- The caller-facing options with their defaults (src/index.ts);
maxTimeout none models the default Infinity. -/
structure RetryOptions where
  retries : Nat := 3
  factor : ℚ := 2
  minTimeout : ℚ := 1000
  maxTimeout : Option ℚ := none
deriving Repr

/-- The options.minTimeout > options.maxTimeout validation; with
maxTimeout Infinity the comparison is false. -/
def minGtMaxCheck (mn : ℚ) (mx : Option ℚ) : Bool :=
  match mx with
  | none => false
  | some m => decide (m < mn)

/-- What calling retry returns to the caller: either a synchronous
throw escaping the call, or a promise with its eventual settlement.
The ECMAScript Promise constructor converts a throw inside the executor
into a rejection of the new promise, so the engine as written never
produces syncThrow; the constructor exists so that the distinction the
specification draws is statable. -/
inductive RetryOutcome (α : Type) where
  | syncThrow (e : JSError)
  | promise (r : RunResult α)
deriving DecidableEq, Repr

/-- Whether retry threw synchronously. -/
def RetryOutcome.isSyncThrow {α : Type} : RetryOutcome α → Bool
  | .syncThrow _ => true
  | .promise _ => false

/-- The run result when retry returned a promise. -/
def RetryOutcome.runOf {α : Type} : RetryOutcome α → Option (RunResult α)
  | .syncThrow _ => none
  | .promise r => some r

/-- retry (src/index.ts): merge options over defaults, validate the
timeout bounds (the throw inside the Promise executor rejects the
returned promise), generate the schedule, record maxRetryTime as its
last entry, and start attempting at attempt number 1 and time 0. -/
def retry {α : Type} (input : Nat → OpResult α)
    (opts : RetryOptions) (obs : AttemptError → Option JSError)
    (opDur : Nat → ℚ) (mtag : Nat) : RetryOutcome α :=
  if minGtMaxCheck opts.minTimeout opts.maxTimeout then
    .promise ⟨.rejected (.val (.plain
        ⟨"minTimeout must be less than maxTimeout", 0⟩)),
      0, [], [], false⟩
  else
    let timeouts := generateTimeouts opts.retries opts.minTimeout
      opts.maxTimeout opts.factor
    .promise (runAux input obs opDur opts.retries timeouts.getLast?
      mtag timeouts 1 [] 0 [] 0)

/-- The invariant tying the state of the mainError loop after processing
a prefix P to the specification functions. -/
def MainInv (P : List JSError) (s : MState) : Prop :=
  (∀ m, s.1 m = msgCount P m) ∧ s.2.1 = mainErrorSpec P ∧
    s.2.2 = maxMsgCount P

/-- The JavaScript rounding function expressed with the Mathlib floor. -/
theorem jround_eq (q : ℚ) : jround q = ⌊q + 1 / 2⌋ := by
  rw [jround, Rat.floor_def' (q + 1 / 2), Rat.floor_def]

theorem msgCount_append (l1 l2 : List JSError) (m : String) :
    msgCount (l1 ++ l2) m = msgCount l1 m + msgCount l2 m :=
  List.countP_append _ _ _

theorem msgCount_cons (e : JSError) (l : List JSError) (m : String) :
    msgCount (e :: l) m = msgCount l m + if e.message = m then 1 else 0 := by
  simp [msgCount, List.countP_cons]

theorem msgCount_snoc (l : List JSError) (e : JSError) (m : String) :
    msgCount (l ++ [e]) m = msgCount l m + if e.message = m then 1 else 0 := by
  rw [msgCount_append]
  simp [msgCount, List.countP_cons]

theorem le_foldrMax {l : List Nat} {x : Nat} (hx : x ∈ l) :
    x ≤ l.foldr max 0 := by
  induction l with
  | nil => cases hx
  | cons a t ih =>
    rw [List.foldr_cons]
    rcases List.mem_cons.mp hx with h | h
    · exact h ▸ le_max_left _ _
    · exact le_trans (ih h) (le_max_right _ _)

theorem foldrMax_le {l : List Nat} {b : Nat} (h : ∀ x ∈ l, x ≤ b) :
    l.foldr max 0 ≤ b := by
  induction l with
  | nil => exact Nat.zero_le b
  | cons a t ih =>
    rw [List.foldr_cons]
    exact max_le (h a (List.mem_cons_self a t))
      (ih fun x hx => h x (List.mem_cons_of_mem a hx))

theorem foldrMax_mem (l : List Nat) :
    l.foldr max 0 = 0 ∨ l.foldr max 0 ∈ l := by
  induction l with
  | nil => exact Or.inl rfl
  | cons a t ih =>
    rw [List.foldr_cons]
    rcases le_total (t.foldr max 0) a with h | h
    · rw [max_eq_left h]
      exact Or.inr (List.mem_cons_self a t)
    · rw [max_eq_right h]
      rcases ih with h0 | hm
      · exact Or.inl h0
      · exact Or.inr (List.mem_cons_of_mem a hm)

theorem msgCount_le_maxMsgCount {l : List JSError} {x : JSError}
    (hx : x ∈ l) : msgCount l x.message ≤ maxMsgCount l :=
  le_foldrMax (List.mem_map_of_mem _ hx)

theorem maxMsgCount_le {l : List JSError} {b : Nat}
    (h : ∀ x ∈ l, msgCount l x.message ≤ b) : maxMsgCount l ≤ b := by
  apply foldrMax_le
  intro c hc
  rcases List.mem_map.mp hc with ⟨x, hx, rfl⟩
  exact h x hx

theorem maxMsgCount_attained (l : List JSError) :
    maxMsgCount l = 0 ∨ ∃ x ∈ l, msgCount l x.message = maxMsgCount l := by
  rcases foldrMax_mem (l.map fun e => msgCount l e.message) with h | h
  · exact Or.inl h
  · rcases List.mem_map.mp h with ⟨x, hx, hxe⟩
    exact Or.inr ⟨x, hx, hxe⟩

theorem find_congr {α : Type} {p q : α → Bool} :
    ∀ {l : List α}, (∀ x ∈ l, p x = q x) → l.find? p = l.find? q := by
  intro l
  induction l with
  | nil => intro _; rfl
  | cons a t ih =>
    intro h
    have ha := h a (List.mem_cons_self a t)
    by_cases hp : p a = true
    · rw [List.find?_cons_of_pos t hp, List.find?_cons_of_pos t (ha ▸ hp)]
    · have hq : ¬ q a = true := fun hq => hp (ha ▸ hq)
      rw [List.find?_cons_of_neg t hp, List.find?_cons_of_neg t hq]
      exact ih fun x hx => h x (List.mem_cons_of_mem a hx)

theorem mainInv_step {P : List JSError} {s : MState} (e : JSError)
    (he : protoColliding e.message = false)
    (h : MainInv P s) : MainInv (P ++ [e]) (stepS s e) := by
  obtain ⟨h1, h2, h3⟩ := h
  have hc_eq : s.1 e.message + 1 = msgCount (P ++ [e]) e.message := by
    rw [h1, msgCount_snoc, if_pos rfl]
  have hcount : ∀ m, (if m = e.message then s.1 e.message + 1 else s.1 m) =
      msgCount (P ++ [e]) m := by
    intro m
    by_cases hm : m = e.message
    · rw [if_pos hm, hm, hc_eq]
    · rw [if_neg hm, msgCount_snoc,
        if_neg (fun hh => hm hh.symm), Nat.add_zero, h1]
  rw [stepS, he]
  simp only [Bool.false_eq_true, if_false]
  by_cases hc : s.1 e.message + 1 ≥ s.2.2
  · rw [if_pos hc]
    have hmax : maxMsgCount (P ++ [e]) = s.1 e.message + 1 := by
      apply le_antisymm
      · apply maxMsgCount_le
        intro x hx
        rcases List.mem_append.mp hx with hxP | hxe
        · by_cases hm : x.message = e.message
          · rw [hm, ← hc_eq]
          · rw [msgCount_snoc, if_neg (fun hh => hm hh.symm),
              Nat.add_zero]
            calc msgCount P x.message ≤ maxMsgCount P :=
                  msgCount_le_maxMsgCount hxP
              _ = s.2.2 := h3.symm
              _ ≤ s.1 e.message + 1 := hc
        · rw [List.mem_singleton.mp hxe, ← hc_eq]
      · rw [hc_eq]
        exact msgCount_le_maxMsgCount
          (List.mem_append.mpr (Or.inr (List.mem_singleton.mpr rfl)))
    refine ⟨hcount, ?_, hmax.symm⟩
    rw [mainErrorSpec]
    have hrev : (P ++ [e]).reverse = e :: P.reverse := by simp
    rw [hrev]
    rw [List.find?_cons_of_pos]
    exact decide_eq_true (by rw [← hc_eq, hmax])
  · rw [if_neg hc]
    have hlt : s.1 e.message + 1 < s.2.2 := Nat.lt_of_not_le hc
    have hmax : maxMsgCount (P ++ [e]) = maxMsgCount P := by
      apply le_antisymm
      · apply maxMsgCount_le
        intro x hx
        rcases List.mem_append.mp hx with hxP | hxe
        · by_cases hm : x.message = e.message
          · rw [hm, ← hc_eq]
            exact le_of_lt (h3 ▸ hlt)
          · rw [msgCount_snoc, if_neg (fun hh => hm hh.symm),
              Nat.add_zero]
            exact msgCount_le_maxMsgCount hxP
        · rw [List.mem_singleton.mp hxe, ← hc_eq]
          exact le_of_lt (h3 ▸ hlt)
      · rcases maxMsgCount_attained P with h0 | ⟨x, hxP, hxM⟩
        · omega
        · have hxne : x.message ≠ e.message := by
            intro hh
            rw [hh] at hxM
            have : s.1 e.message = maxMsgCount P := by rw [h1, hxM]
            omega
          have : msgCount (P ++ [e]) x.message = maxMsgCount P := by
            rw [msgCount_snoc, if_neg (fun hh => hxne hh.symm),
              Nat.add_zero, hxM]
          calc maxMsgCount P = msgCount (P ++ [e]) x.message := this.symm
            _ ≤ maxMsgCount (P ++ [e]) :=
              msgCount_le_maxMsgCount (List.mem_append.mpr (Or.inl hxP))
    refine ⟨hcount, ?_, by rw [h3, hmax]⟩
    rw [h2, mainErrorSpec, mainErrorSpec]
    have hrev : (P ++ [e]).reverse = e :: P.reverse := by simp
    rw [hrev]
    rw [List.find?_cons_of_neg]
    · apply find_congr
      intro x hx
      have hxP : x ∈ P := List.mem_reverse.mp hx
      by_cases hm : x.message = e.message
      · have hl : msgCount (P ++ [e]) x.message ≠ maxMsgCount (P ++ [e]) := by
          rw [hm, ← hc_eq, hmax]
          omega
        have hr : msgCount P x.message ≠ maxMsgCount P := by
          rw [hm]
          intro hh
          have : s.1 e.message = maxMsgCount P := by rw [h1, hh]
          omega
        simp [hl, hr]
      · have hsame : msgCount (P ++ [e]) x.message = msgCount P x.message := by
          rw [msgCount_snoc, if_neg (fun hh => hm hh.symm), Nat.add_zero]
        rw [decide_eq_decide]
        rw [hsame, hmax]
    · simp only [decide_eq_true_eq]
      rw [← hc_eq, hmax]
      omega

theorem mainInv_fold (l : List JSError)
    (hclean : ∀ e ∈ l, protoColliding e.message = false) :
    MainInv l (l.foldl stepS (fun _ => 0, none, 0)) := by
  induction l using List.reverseRecOn with
  | nil =>
    refine ⟨fun m => by simp [msgCount], by simp [mainErrorSpec], ?_⟩
    simp [maxMsgCount]
  | append_singleton P e ih =>
    rw [List.foldl_append, List.foldl_cons, List.foldl_nil]
    exact mainInv_step e
      (hclean e (List.mem_append.mpr (Or.inr (List.mem_singleton.mpr rfl))))
      (ih fun x hx => hclean x (List.mem_append.mpr (Or.inl hx)))

theorem mainError_eq_spec_fn (l : List JSError)
    (hclean : ∀ e ∈ l, protoColliding e.message = false) :
    mainError l = mainErrorSpec l := by
  cases l with
  | nil => rfl
  | cons a t =>
    rw [mainError]
    simp only [List.isEmpty_cons, if_false, Bool.false_eq_true]
    exact (mainInv_fold (a :: t) hclean).2.1

/-- C3 amended: for every error accumulator none of whose messages
names an Object.prototype property, mainError groups the errors by
exact message string counting occurrences and scans chronologically
under the non-strict update rule, returning exactly the most recently
seen failure whose message attains the maximal occurrence count (ties
prefer the most recent); the empty accumulator yields none.  A failure
whose message names an Object.prototype property is never selected (the
prototype-chain lookup makes its count non-numeric), so this clean
grouping description does not hold for such accumulators. -/
theorem mainError_eq_spec (l : List JSError)
    (hclean : ∀ e ∈ l, protoColliding e.message = false) :
    mainError l = mainErrorSpec l ∧ mainError ([] : List JSError) = none :=
  ⟨mainError_eq_spec_fn l hclean, rfl⟩

/-- C3 witness: the amended theorem applied to a concrete accumulator
with a repeated message. -/
theorem mainError_eq_spec_witness :
    mainError [JSError.plain ⟨"a", 0⟩, JSError.plain ⟨"b", 1⟩,
        JSError.plain ⟨"a", 2⟩] =
      mainErrorSpec [JSError.plain ⟨"a", 0⟩, JSError.plain ⟨"b", 1⟩,
        JSError.plain ⟨"a", 2⟩] ∧
    mainError ([] : List JSError) = none :=
  mainError_eq_spec
    [JSError.plain ⟨"a", 0⟩, JSError.plain ⟨"b", 1⟩,
      JSError.plain ⟨"a", 2⟩] (by decide)

/-- C3 counterexample: a lone failure whose message is "toString" is
never selected by the counting loop — mainError returns none — although
the clean grouping rule of the claim would return that failure. -/
theorem mainError_proto_counterexample :
    mainError [JSError.plain ⟨"toString", 0⟩] = none ∧
    mainErrorSpec [JSError.plain ⟨"toString", 0⟩] =
      some (JSError.plain ⟨"toString", 0⟩) := by
  constructor
  · decide
  · decide

theorem runAux_log_extends {α : Type} (input : Nat → OpResult α)
    (obs : AttemptError → Option JSError) (opDur : Nat → ℚ)
    (retries : Nat) (mrt : Option ℚ) (mtag : Nat) :
    ∀ (remaining : List ℚ) (n : Nat) (errors : List JSError) (now : ℚ)
      (log : List AttemptError) (invs : Nat),
      ∃ s, (runAux input obs opDur retries mrt mtag remaining n errors now
        log invs).observerCalls = log ++ s := by
  intro remaining
  induction remaining with
  | nil =>
    intro n errors now log invs
    rw [runAux]
    dsimp only
    split
    · exact ⟨[], by simp⟩
    · exact ⟨[], by simp⟩
    · split
      · exact ⟨[], by simp⟩
      · split
        · exact ⟨[_], rfl⟩
        · split
          · exact ⟨[_], rfl⟩
          · exact ⟨[_], rfl⟩
  | cons t rest ih =>
    intro n errors now log invs
    rw [runAux]
    dsimp only
    split
    · exact ⟨[], by simp⟩
    · exact ⟨[], by simp⟩
    · split
      · exact ⟨[], by simp⟩
      · split
        · exact ⟨[_], rfl⟩
        · split
          · exact ⟨[_], rfl⟩
          · rcases ih (n + 1) _ _ _ _ with ⟨s, hs⟩
            exact ⟨_, by rw [hs, List.append_assoc]⟩

/-- C2: Failure classification at the engine: an AbortError always stops
retrying and the engine rejects with the wrapped originalError; a
TypeError whose message is not one of the known transient network-error
messages stops retrying and the engine rejects with that failure as-is;
a TypeError with a known network-error message, and every other
structured failure, is retryable (the failure reaches the observer and
the retry scheduler). -/
theorem classification_engine {α : Type} (input : Nat → OpResult α)
    (obs : AttemptError → Option JSError) (opDur : Nat → ℚ)
    (retries : Nat) (mrt : Option ℚ) (mtag : Nat)
    (remaining : List ℚ) (n : Nat) (errors : List JSError) (now : ℚ)
    (log : List AttemptError) (invs : Nat) :
    (∀ o, input n = .err (.abortError o) →
      (runAux input obs opDur retries mrt mtag remaining n errors now log
        invs).settle = .rejected (.val o)) ∧
    (∀ b, input n = .err (.typeError b) → isNetworkError b.message = false →
      (runAux input obs opDur retries mrt mtag remaining n errors now log
        invs).settle = .rejected (.val (.typeError b))) ∧
    (∀ b, input n = .err (.typeError b) → isNetworkError b.message = true →
      ∃ s, (runAux input obs opDur retries mrt mtag remaining n errors now
        log invs).observerCalls =
          log ++ mkAttemptError (JSError.typeError b).message n
            ((retries : ℤ) - ((n : ℤ) - 1)) :: s) ∧
    (∀ b, input n = .err (.plain b) →
      ∃ s, (runAux input obs opDur retries mrt mtag remaining n errors now
        log invs).observerCalls =
          log ++ mkAttemptError (JSError.plain b).message n
            ((retries : ℤ) - ((n : ℤ) - 1)) :: s) := by
  have hretryable : ∀ e, input n = .err e → classifyFailure e = .proceed →
      ∃ s, (runAux input obs opDur retries mrt mtag remaining n errors now
        log invs).observerCalls =
          log ++ mkAttemptError e.message n
            ((retries : ℤ) - ((n : ℤ) - 1)) :: s := by
    intro e hin hcl
    cases remaining with
    | nil =>
      rw [runAux]
      dsimp only
      rw [hin]
      dsimp only
      rw [hcl]
      dsimp only
      cases hobs : obs (mkAttemptError e.message n
          ((retries : ℤ) - ((n : ℤ) - 1))) with
      | some v => exact ⟨[], rfl⟩
      | none =>
        dsimp only
        split
        · exact ⟨[], rfl⟩
        · exact ⟨[], rfl⟩
    | cons t rest =>
      rw [runAux]
      dsimp only
      rw [hin]
      dsimp only
      rw [hcl]
      dsimp only
      cases hobs : obs (mkAttemptError e.message n
          ((retries : ℤ) - ((n : ℤ) - 1))) with
      | some v => exact ⟨[], rfl⟩
      | none =>
        dsimp only
        split
        · exact ⟨[], rfl⟩
        · rcases runAux_log_extends input obs opDur retries mrt mtag rest
            (n + 1) (errors ++ [e]) (now + opDur n + t)
            (log ++ [mkAttemptError e.message n
              ((retries : ℤ) - ((n : ℤ) - 1))]) (invs + 1) with ⟨s, hs⟩
          exact ⟨s, by rw [hs, List.append_assoc]; rfl⟩
  refine ⟨?_, ?_, ?_, ?_⟩
  · intro o hin
    cases remaining <;>
      · rw [runAux]
        dsimp only
        rw [hin]
        rfl
  · intro b hin hnet
    cases remaining <;>
      · rw [runAux]
        dsimp only
        rw [hin]
        dsimp only [classifyFailure]
        rw [hnet]
        rfl
  · intro b hin hnet
    exact hretryable _ hin (by simp [classifyFailure, hnet])
  · intro b hin
    exact hretryable _ hin rfl

/-- C8: if the observer raises a failure on a retryable attempt failure,
the engine rejects with exactly that failure, the operation is not
invoked again, and neither the triggering failure nor the observer
failure is added to the error accumulator. -/
theorem observer_throw_rejects {α : Type} (input : Nat → OpResult α)
    (obs : AttemptError → Option JSError) (opDur : Nat → ℚ)
    (retries : Nat) (mrt : Option ℚ) (mtag : Nat)
    (remaining : List ℚ) (n : Nat) (errors : List JSError) (now : ℚ)
    (log : List AttemptError) (invs : Nat) (e v : JSError)
    (hin : input n = .err e) (hcl : classifyFailure e = .proceed)
    (hobs : obs (mkAttemptError e.message n
      ((retries : ℤ) - ((n : ℤ) - 1))) = some v) :
    runAux input obs opDur retries mrt mtag remaining n errors now log
        invs =
      ⟨.rejected (.val v), invs + 1,
        log ++ [mkAttemptError e.message n ((retries : ℤ) - ((n : ℤ) - 1))],
        errors, false⟩ := by
  cases remaining <;>
    · rw [runAux]
      dsimp only
      rw [hin]
      dsimp only
      rw [hcl]
      dsimp only
      rw [hobs]

theorem runAux_observer_calls {α : Type} (input : Nat → OpResult α)
    (obs : AttemptError → Option JSError) (opDur : Nat → ℚ)
    (retries : Nat) (mrt : Option ℚ) (mtag : Nat) :
    ∀ (remaining : List ℚ) (n : Nat) (errors : List JSError) (now : ℚ)
      (log : List AttemptError) (invs : Nat),
      1 ≤ n → (n - 1) + remaining.length ≤ retries →
      ∃ calls,
        (runAux input obs opDur retries mrt mtag remaining n errors now log
          invs).observerCalls = log ++ calls ∧
        calls.map (fun ae => ae.attemptNumber) =
          List.range' n calls.length ∧
        ∀ ae ∈ calls,
          ae.name = "AttemptError" ∧
          ae.retriesLeft = (retries : ℤ) - ((ae.attemptNumber : ℤ) - 1) ∧
          0 ≤ ae.retriesLeft ∧
          ∃ e, input ae.attemptNumber = .err e ∧ ae.message = e.message := by
  intro remaining
  induction remaining with
  | nil =>
    intro n errors now log invs hn hlen
    rw [runAux]
    dsimp only
    cases hin : input n with
    | ok v => exact ⟨[], by simp, by simp, by simp⟩
    | nonError str => exact ⟨[], by simp, by simp, by simp⟩
    | err e =>
      cases hcl : classifyFailure e with
      | rejectWith v => exact ⟨[], by simp [hcl], by simp, by simp⟩
      | proceed =>
        try simp only [hcl]
        have hone : ∀ s,
            (log ++ [mkAttemptError e.message n
              ((retries : ℤ) - ((n : ℤ) - 1))] = log ++ s) →
            ∃ calls,
              log ++ [mkAttemptError e.message n
                ((retries : ℤ) - ((n : ℤ) - 1))] = log ++ calls ∧
              calls.map (fun ae => ae.attemptNumber) =
                List.range' n calls.length ∧
              ∀ ae ∈ calls,
                ae.name = "AttemptError" ∧
                ae.retriesLeft =
                  (retries : ℤ) - ((ae.attemptNumber : ℤ) - 1) ∧
                0 ≤ ae.retriesLeft ∧
                ∃ e2, input ae.attemptNumber = .err e2 ∧
                  ae.message = e2.message := by
          intro s _
          refine ⟨[mkAttemptError e.message n
            ((retries : ℤ) - ((n : ℤ) - 1))], rfl, by simp [mkAttemptError], ?_⟩
          intro ae hae
          rw [List.mem_singleton.mp hae]
          refine ⟨rfl, rfl, ?_, ⟨e, hin, rfl⟩⟩
          simp only [mkAttemptError]
          simp at hlen
          omega
        cases hobs : obs (mkAttemptError e.message n
            ((retries : ℤ) - ((n : ℤ) - 1))) with
        | some v =>
          try simp only [hobs]
          exact hone _ rfl
        | none =>
          try simp only [hobs]
          try dsimp only
          split
          · exact hone _ rfl
          · exact hone _ rfl
  | cons t rest ih =>
    intro n errors now log invs hn hlen
    rw [runAux]
    dsimp only
    cases hin : input n with
    | ok v => exact ⟨[], by simp, by simp, by simp⟩
    | nonError str => exact ⟨[], by simp, by simp, by simp⟩
    | err e =>
      cases hcl : classifyFailure e with
      | rejectWith v => exact ⟨[], by simp [hcl], by simp, by simp⟩
      | proceed =>
        try simp only [hcl]
        have hrl : (0 : ℤ) ≤ (retries : ℤ) - ((n : ℤ) - 1) := by
          simp at hlen
          omega
        cases hobs : obs (mkAttemptError e.message n
            ((retries : ℤ) - ((n : ℤ) - 1))) with
        | some v =>
          try simp only [hobs]
          refine ⟨[mkAttemptError e.message n
            ((retries : ℤ) - ((n : ℤ) - 1))], rfl, by simp [mkAttemptError], ?_⟩
          intro ae hae
          rw [List.mem_singleton.mp hae]
          exact ⟨rfl, rfl, hrl, ⟨e, hin, rfl⟩⟩
        | none =>
          try simp only [hobs]
          try dsimp only
          split
          · refine ⟨[mkAttemptError e.message n
              ((retries : ℤ) - ((n : ℤ) - 1))], rfl,
                by simp [mkAttemptError], ?_⟩
            intro ae hae
            rw [List.mem_singleton.mp hae]
            exact ⟨rfl, rfl, hrl, ⟨e, hin, rfl⟩⟩
          · rcases ih (n + 1) (errors ++ [e]) (now + opDur n + t)
                (log ++ [mkAttemptError e.message n
                  ((retries : ℤ) - ((n : ℤ) - 1))]) (invs + 1)
                (by omega) (by simp at hlen ⊢; omega) with
              ⟨calls, hc1, hc2, hc3⟩
            refine ⟨mkAttemptError e.message n
              ((retries : ℤ) - ((n : ℤ) - 1)) :: calls, ?_, ?_, ?_⟩
            · rw [hc1, List.append_assoc]
              rfl
            · simp only [List.map_cons, List.length_cons, mkAttemptError]
              rw [List.range'_succ]
              rw [hc2]
            · intro ae hae
              rcases List.mem_cons.mp hae with hae | hae
              · rw [hae]
                exact ⟨rfl, rfl, hrl, ⟨e, hin, rfl⟩⟩
              · exact hc3 ae hae

theorem calls_chain_of_range {retries : Nat} :
    ∀ (calls : List AttemptError) (n : Nat),
      calls.map (fun ae => ae.attemptNumber) = List.range' n calls.length →
      (∀ ae ∈ calls,
        ae.retriesLeft = (retries : ℤ) - ((ae.attemptNumber : ℤ) - 1)) →
      List.Chain' (fun a b => b.retriesLeft < a.retriesLeft) calls := by
  intro calls
  induction calls with
  | nil => intro n _ _; exact List.chain'_nil
  | cons a tail ih =>
    intro n hmap hrl
    cases tail with
    | nil => exact List.chain'_singleton a
    | cons b tail2 =>
      simp only [List.map_cons, List.length_cons, List.range'_succ] at hmap
      obtain ⟨ha, hmap2⟩ := List.cons_eq_cons.mp hmap
      rw [List.chain'_cons]
      constructor
      · obtain ⟨hb, _⟩ := List.cons_eq_cons.mp hmap2
        rw [hrl a (List.mem_cons_self _ _),
          hrl b (List.mem_cons_of_mem a (List.mem_cons_self _ _)), ha, hb]
        omega
      · refine ih (n + 1) ?_
          (fun ae hae => hrl ae (List.mem_cons_of_mem a hae))
        simp only [List.map_cons, List.length_cons, List.range'_succ]
        exact hmap2

theorem generateTimeouts_length (r : Nat) (mn : ℚ) (mx : Option ℚ)
    (f : ℚ) : (generateTimeouts r mn mx f).length = r := by
  simp [generateTimeouts]

/-- C7: every value passed to the failure observer carries
name = "AttemptError", a message copied from the triggering failure, the
current 1-based attemptNumber, and
retriesLeft = configuredRetries - (attemptNumber - 1), a non-negative
integer that strictly decreases across the session. -/
theorem observer_attempt_error_shape {α : Type} (input : Nat → OpResult α)
    (opts : RetryOptions) (obs : AttemptError → Option JSError)
    (opDur : Nat → ℚ) (mtag : Nat) (r : RunResult α)
    (hr : retry input opts obs opDur mtag = .promise r) :
    (∀ ae ∈ r.observerCalls,
      ae.name = "AttemptError" ∧
      ae.retriesLeft = (opts.retries : ℤ) - ((ae.attemptNumber : ℤ) - 1) ∧
      0 ≤ ae.retriesLeft ∧
      ∃ e, input ae.attemptNumber = .err e ∧ ae.message = e.message) ∧
    List.Chain' (fun a b => b.retriesLeft < a.retriesLeft)
      r.observerCalls := by
  rw [retry] at hr
  split at hr
  · cases hr
    exact ⟨by simp, List.chain'_nil⟩
  · cases hr
    rcases runAux_observer_calls input obs opDur opts.retries
        (generateTimeouts opts.retries opts.minTimeout opts.maxTimeout
          opts.factor).getLast? mtag
        (generateTimeouts opts.retries opts.minTimeout opts.maxTimeout
          opts.factor) 1 [] 0 [] 0 le_rfl
        (by rw [generateTimeouts_length]; omega) with ⟨calls, h1, h2, h3⟩
    rw [List.nil_append] at h1
    rw [h1]
    exact ⟨h3, calls_chain_of_range calls 1 h2
      fun ae hae => (h3 ae hae).2.1⟩

/-- C7 witness: the theorem applied to a run with a single retryable
failure followed by success. -/
theorem observer_attempt_error_shape_witness :
    (∀ ae ∈ (⟨.resolved 0, 1, [], [], false⟩ :
        RunResult Nat).observerCalls,
      ae.name = "AttemptError" ∧
      ae.retriesLeft =
        (({} : RetryOptions).retries : ℤ) - ((ae.attemptNumber : ℤ) - 1) ∧
      0 ≤ ae.retriesLeft ∧
      ∃ e, (fun _ => OpResult.ok 0) ae.attemptNumber = .err e ∧
        ae.message = e.message) ∧
    List.Chain' (fun a b => b.retriesLeft < a.retriesLeft)
      (⟨.resolved 0, 1, [], [], false⟩ :
        RunResult Nat).observerCalls :=
  observer_attempt_error_shape (fun _ => OpResult.ok 0) {}
    (fun _ => none) (fun _ => 0) 0 _ rfl

/-- C5 amended: with retries = 0 the schedule is empty and the operation
is attempted exactly once with no retries; the max retry time derived
from the empty schedule is undefined and the expiry comparison is false
(never expired), so the first retryable failure takes the empty-schedule
exhaustion path, with no synthetic marker, rejecting with the failure
itself provided the failure's message does not name an Object.prototype
property (otherwise the counting loop never selects it and the engine
rejects null). -/
theorem retries_zero_single_attempt {α : Type} (input : Nat → OpResult α)
    (obs : AttemptError → Option JSError) (opDur : Nat → ℚ) (mtag : Nat)
    (opts : RetryOptions) (hret : opts.retries = 0)
    (hval : minGtMaxCheck opts.minTimeout opts.maxTimeout = false)
    (b : BaseError) (hb : protoColliding b.message = false)
    (hin : input 1 = .err (.plain b))
    (hobs : obs (mkAttemptError b.message 1 0) = none) :
    retry input opts obs opDur mtag = .promise
      ⟨.rejected (.val (.plain b)), 1, [mkAttemptError b.message 1 0],
        [.plain b], false⟩ ∧
    expiredCheck none (0 + opDur 1) = false := by
  refine ⟨?_, rfl⟩
  rw [retry, hval]
  simp only [Bool.false_eq_true, if_false]
  rw [hret]
  have htim : generateTimeouts 0 opts.minTimeout opts.maxTimeout
      opts.factor = [] := rfl
  rw [htim]
  rw [runAux]
  dsimp only
  rw [hin]
  dsimp only [classifyFailure]
  have hae : mkAttemptError (JSError.plain b).message 1
      (((0 : Nat) : ℤ) - (((1 : Nat) : ℤ) - 1)) =
      mkAttemptError b.message 1 0 := by
    norm_num [mkAttemptError, JSError.message]
  rw [hae, hobs]
  have hme : mainError ([] ++ [JSError.plain b]) = some (.plain b) := by
    simp [mainError, stepS, hb, JSError.message]
  have hexp : expiredCheck ([] : List ℚ).getLast? (0 + opDur 1) = false :=
    rfl
  dsimp only
  rw [hexp]
  simp only [Bool.false_eq_true, if_false]
  rw [hme]
  rfl

/-- C5 witness: the amended theorem applied to a concrete run with
retries = 0 and a failing operation. -/
theorem retries_zero_single_attempt_witness :
    retry (fun _ => OpResult.err (α := Unit) (.plain ⟨"boom", 0⟩))
        {retries := 0} (fun _ => none) (fun _ => 0) 7 = .promise
      ⟨.rejected (.val (.plain ⟨"boom", 0⟩)), 1,
        [mkAttemptError "boom" 1 0], [.plain ⟨"boom", 0⟩], false⟩ ∧
    expiredCheck none (0 + (fun _ => (0 : ℚ)) 1) = false :=
  retries_zero_single_attempt (fun _ => OpResult.err (.plain ⟨"boom", 0⟩))
    (fun _ => none) (fun _ => 0) 7 {retries := 0} rfl rfl ⟨"boom", 0⟩
    (by decide) rfl rfl

/-- C5 counterexample: with retries = 0 the engine does not treat the
empty-schedule max retry time as immediately expired: the expiry
comparison is false, the timeout-expired branch is not taken, and the
final accumulator contains no synthetic marker. -/
theorem retries_zero_counterexample :
    retry (fun _ => OpResult.err (α := Unit) (.plain ⟨"boom", 0⟩))
        {retries := 0} (fun _ => none) (fun _ => 0) 7 = .promise
      ⟨.rejected (.val (.plain ⟨"boom", 0⟩)), 1,
        [mkAttemptError "boom" 1 0], [.plain ⟨"boom", 0⟩], false⟩ ∧
    expiredCheck none ((0 : ℚ) + 0) = false ∧
    markerE 7 ∉ [JSError.plain ⟨"boom", 0⟩] := by
  refine ⟨rfl, rfl, ?_⟩
  simp [markerE]

/-- C6 amended: if minTimeout > maxTimeout, the engine raises the fatal
configuration failure with message
"minTimeout must be less than maxTimeout" before any attempt (the
operation is never invoked), delivered as a rejection of the returned
promise — the throw inside the Promise executor is converted by the
Promise constructor — not as a synchronous throw to the caller. -/
theorem config_error_rejected {α : Type} (input : Nat → OpResult α)
    (obs : AttemptError → Option JSError) (opDur : Nat → ℚ) (mtag : Nat)
    (opts : RetryOptions) (M : ℚ) (hmx : opts.maxTimeout = some M)
    (hlt : M < opts.minTimeout) :
    retry input opts obs opDur mtag = .promise
      ⟨.rejected (.val (.plain
        ⟨"minTimeout must be less than maxTimeout", 0⟩)), 0, [], [],
        false⟩ ∧
    (retry input opts obs opDur mtag).isSyncThrow = false := by
  have hchk : minGtMaxCheck opts.minTimeout opts.maxTimeout = true := by
    rw [hmx, minGtMaxCheck]
    exact decide_eq_true hlt
  rw [retry, hchk]
  exact ⟨rfl, rfl⟩

/-- C6 witness: the amended theorem applied to concrete options with
minTimeout 2 and maxTimeout 1. -/
theorem config_error_rejected_witness :
    retry (fun _ => OpResult.ok (0 : Nat))
        {minTimeout := 2, maxTimeout := some 1} (fun _ => none)
        (fun _ => 0) 0 = .promise
      ⟨.rejected (.val (.plain
        ⟨"minTimeout must be less than maxTimeout", 0⟩)), 0, [], [],
        false⟩ ∧
    (retry (fun _ => OpResult.ok (0 : Nat))
        {minTimeout := 2, maxTimeout := some 1} (fun _ => none)
        (fun _ => 0) 0).isSyncThrow = false :=
  config_error_rejected (fun _ => OpResult.ok 0)
    (fun _ => none) (fun _ => 0) 0 {minTimeout := 2, maxTimeout := some 1}
    1 rfl (by decide)

/-- C6 counterexample: the configuration failure is not thrown
synchronously to the caller; the call evaluates to a promise (with zero
operation invocations) whose settlement is the rejection. -/
theorem config_error_counterexample :
    (retry (fun _ => OpResult.ok (0 : Nat))
        {minTimeout := 2, maxTimeout := some 1} (fun _ => none)
        (fun _ => 0) 0).isSyncThrow = false ∧
    retry (fun _ => OpResult.ok (0 : Nat))
        {minTimeout := 2, maxTimeout := some 1} (fun _ => none)
        (fun _ => 0) 0 = .promise
      ⟨.rejected (.val (.plain
        ⟨"minTimeout must be less than maxTimeout", 0⟩)), 0, [], [],
        false⟩ := by
  constructor
  · rfl
  · rw [retry]
    rfl

/-- C1 amended: for an operation that fails on every attempt with the
same message, retries = 3 and the default timeouts, with instantaneous
attempts, the engine rejects after exactly 4 invocations (1 initial + 3
retries) with the representative failure equal to the repeated message;
the failure observer is invoked exactly 4 times — once per retryable
failure, including the exhausting one — with retriesLeft values
3, 2, 1, 0 and attemptNumber values 1, 2, 3, 4 (the time budget
necessarily expires at the final decision point, so the synthetic marker
is prepended there, but the surfaced failure is the repeated one).  The
repeated message must not name an Object.prototype property; otherwise
the counting loop never selects the repeated failure and the marker is
surfaced instead. -/
theorem exhaustion_default_retries (msg : String) (tags : Nat → Nat)
    (hm : protoColliding msg = false) :
    retry (fun n => OpResult.err (α := Unit) (.plain ⟨msg, tags n⟩))
        {retries := 3} (fun _ => none) (fun _ => 0) 99 = .promise
      ⟨.rejected (.val (.plain ⟨msg, tags 4⟩)), 4,
        [mkAttemptError msg 1 3, mkAttemptError msg 2 2,
         mkAttemptError msg 3 1, mkAttemptError msg 4 0],
        [markerE 99, .plain ⟨msg, tags 1⟩, .plain ⟨msg, tags 2⟩,
         .plain ⟨msg, tags 3⟩, .plain ⟨msg, tags 4⟩], true⟩ := by
  rw [retry]
  have hchk : minGtMaxCheck ({retries := 3} : RetryOptions).minTimeout
      ({retries := 3} : RetryOptions).maxTimeout = false := rfl
  rw [hchk]
  simp only [Bool.false_eq_true, if_false]
  have htim : generateTimeouts ({retries := 3} : RetryOptions).retries
      ({retries := 3} : RetryOptions).minTimeout
      ({retries := 3} : RetryOptions).maxTimeout
      ({retries := 3} : RetryOptions).factor = [1000, 2000, 4000] := by
    show generateTimeouts 3 1000 none 2 = _
    simp [generateTimeouts, jround_eq, jsMinCap, List.range_succ]
    norm_num
  rw [htim]
  have hlast : ([1000, 2000, 4000] : List ℚ).getLast? = some 4000 := rfl
  rw [hlast]
  have hpm : protoColliding "Maximum retry timeout reached" = false := by
    decide
  by_cases hmm : msg = "Maximum retry timeout reached"
  · subst hmm
    norm_num [runAux, classifyFailure, mkAttemptError, expiredCheck,
      markerE, mainError, stepS, jsReject, JSError.message, hpm]
  · norm_num [runAux, classifyFailure, mkAttemptError, expiredCheck,
      markerE, mainError, stepS, jsReject, JSError.message, hm, hpm, hmm]

/-- C1 counterexample: in the concrete exhaustion run with retries = 3,
default timeouts and instantaneous attempts, the observer is invoked 4
times (not 3), with attemptNumber values 1, 2, 3, 4 and retriesLeft
values 3, 2, 1, 0. -/
theorem exhaustion_observer_counterexample :
    retry (fun n => OpResult.err (α := Unit) (.plain ⟨"fixture", n⟩))
        {retries := 3} (fun _ => none) (fun _ => 0) 5 = .promise
      ⟨.rejected (.val (.plain ⟨"fixture", 4⟩)), 4,
        [mkAttemptError "fixture" 1 3, mkAttemptError "fixture" 2 2,
         mkAttemptError "fixture" 3 1, mkAttemptError "fixture" 4 0],
        [markerE 5, .plain ⟨"fixture", 1⟩, .plain ⟨"fixture", 2⟩,
         .plain ⟨"fixture", 3⟩, .plain ⟨"fixture", 4⟩], true⟩ ∧
    [mkAttemptError "fixture" 1 3, mkAttemptError "fixture" 2 2,
     mkAttemptError "fixture" 3 1,
     mkAttemptError "fixture" 4 0].length ≠ 3 := by
  constructor
  · rw [retry]
    have hchk : minGtMaxCheck ({retries := 3} : RetryOptions).minTimeout
        ({retries := 3} : RetryOptions).maxTimeout = false := rfl
    rw [hchk]
    simp only [Bool.false_eq_true, if_false]
    have htim : generateTimeouts ({retries := 3} : RetryOptions).retries
        ({retries := 3} : RetryOptions).minTimeout
        ({retries := 3} : RetryOptions).maxTimeout
        ({retries := 3} : RetryOptions).factor = [1000, 2000, 4000] := by
      show generateTimeouts 3 1000 none 2 = _
      simp [generateTimeouts, jround_eq, jsMinCap, List.range_succ]
      norm_num
    rw [htim]
    have hlast : ([1000, 2000, 4000] : List ℚ).getLast? = some 4000 := rfl
    rw [hlast]
    have hpf : protoColliding "fixture" = false := by decide
    have hpm : protoColliding "Maximum retry timeout reached" = false := by
      decide
    norm_num [runAux, classifyFailure, mkAttemptError, expiredCheck,
      markerE, mainError, stepS, jsReject, JSError.message, hpf, hpm]
  · simp

/-- C1 witness: the amended exhaustion theorem applied to the concrete
message "fixture". -/
theorem exhaustion_default_retries_witness :
    retry (fun n => OpResult.err (α := Unit) (.plain ⟨"fixture", n⟩))
        {retries := 3} (fun _ => none) (fun _ => 0) 99 = .promise
      ⟨.rejected (.val (.plain ⟨"fixture", 4⟩)), 4,
        [mkAttemptError "fixture" 1 3, mkAttemptError "fixture" 2 2,
         mkAttemptError "fixture" 3 1, mkAttemptError "fixture" 4 0],
        [markerE 99, .plain ⟨"fixture", 1⟩, .plain ⟨"fixture", 2⟩,
         .plain ⟨"fixture", 3⟩, .plain ⟨"fixture", 4⟩], true⟩ :=
  exhaustion_default_retries "fixture" (fun n => n) (by decide)

/-- C4: there exists an execution in which the retry-time budget
expires at a retry-decision point and the failure surfaced to the
caller on exhaustion is the synthetic "Maximum retry timeout reached"
marker error that was prepended to the accumulator: when every
operation failure carries a message colliding with an Object.prototype
property (here "toString"), the counting loop never updates past the
marker at index 0 and mainError returns the marker itself. -/
theorem budget_expiry_surfaces_marker :
    retry (fun n => OpResult.err (α := Unit) (.plain ⟨"toString", n⟩))
        {retries := 1} (fun _ => none) (fun _ => 0) 42 = .promise
      ⟨.rejected (.val (markerE 42)), 2,
        [mkAttemptError "toString" 1 1, mkAttemptError "toString" 2 0],
        [markerE 42, .plain ⟨"toString", 1⟩, .plain ⟨"toString", 2⟩],
        true⟩ := by
  rw [retry]
  have hchk : minGtMaxCheck ({retries := 1} : RetryOptions).minTimeout
      ({retries := 1} : RetryOptions).maxTimeout = false := rfl
  rw [hchk]
  simp only [Bool.false_eq_true, if_false]
  have htim : generateTimeouts ({retries := 1} : RetryOptions).retries
      ({retries := 1} : RetryOptions).minTimeout
      ({retries := 1} : RetryOptions).maxTimeout
      ({retries := 1} : RetryOptions).factor = [1000] := by
    show generateTimeouts 1 1000 none 2 = _
    simp [generateTimeouts, jround_eq, jsMinCap, List.range_succ]
    norm_num
  rw [htim]
  have hlast : ([1000] : List ℚ).getLast? = some 1000 := rfl
  rw [hlast]
  have hts : protoColliding "toString" = true := by decide
  have hpm : protoColliding "Maximum retry timeout reached" = false := by
    decide
  norm_num [runAux, classifyFailure, mkAttemptError, expiredCheck,
    markerE, mainError, stepS, jsReject, JSError.message, hts, hpm]

/-- C9: the Schedule Generator is a pure function: for every
non-negative integer retries and numbers min, max, factor, the produced
sequence has length exactly retries and its i-th entry (0-based) equals
min(round(max(min, 1) * factor ^ i), max); in particular
generate(5, 10, Infinity, 6) = [10, 60, 360, 2160, 12960] and
generate(0, ...) is empty. -/
theorem generateTimeouts_spec :
    (∀ (r : Nat) (mn : ℚ) (mx : Option ℚ) (f : ℚ),
      (generateTimeouts r mn mx f).length = r) ∧
    (∀ (r : Nat) (mn : ℚ) (mx : Option ℚ) (f : ℚ) (i : Nat), i < r →
      (generateTimeouts r mn mx f).getD i 0 =
        jsMinCap (jround (max mn 1 * f ^ i)) mx) ∧
    generateTimeouts 5 10 none 6 = [10, 60, 360, 2160, 12960] ∧
    (∀ (mn : ℚ) (mx : Option ℚ) (f : ℚ),
      generateTimeouts 0 mn mx f = []) := by
  refine ⟨generateTimeouts_length, ?_, ?_, fun _ _ _ => rfl⟩
  · intro r mn mx f i hi
    simp [generateTimeouts, List.getD_eq_getElem?_getD,
      List.getElem?_range hi]
  · simp [generateTimeouts, jround_eq, jsMinCap, List.range_succ]
    norm_num

/-- C9 witness: the pointwise formula evaluated at index 2 of the
default five-entry schedule. -/
theorem generateTimeouts_spec_witness :
    (generateTimeouts 5 10 none 6).getD 2 0 =
      jsMinCap (jround (max 10 1 * 6 ^ 2)) none :=
  generateTimeouts_spec.2.1 5 10 none 6 2 (by decide)

theorem jround_mono {a b : ℚ} (h : a ≤ b) : jround a ≤ jround b := by
  rw [jround_eq, jround_eq]
  exact Int.floor_le_floor (by linarith)

theorem jsMinCap_mono {a b : ℚ} (mx : Option ℚ) (h : a ≤ b) :
    jsMinCap a mx ≤ jsMinCap b mx := by
  cases mx with
  | none => exact h
  | some M => exact min_le_min h le_rfl

/-- C10 counterexample: with growth factor 1/2 the generated schedule
decreases (generate(2, 10, Infinity, 1/2) = [10, 5]), and with a
negative cap the entry is negative (generate(1, 10, -3, 2) = [-3]); the
schedule is therefore neither monotonically non-decreasing nor
non-negative for every input. -/
theorem schedule_monotone_counterexample :
    generateTimeouts 2 10 none (1 / 2) = [10, 5] ∧
    ¬ ((10 : ℚ) ≤ 5) ∧
    generateTimeouts 1 10 (some (-3)) 2 = [-3] ∧
    ¬ ((0 : ℚ) ≤ -3) := by
  refine ⟨?_, by norm_num, ?_, by norm_num⟩
  · simp [generateTimeouts, jround_eq, jsMinCap, List.range_succ]
    norm_num
  · simp [generateTimeouts, jround_eq, jsMinCap, List.range_succ]
    norm_num

/-- C10 amended: for growth factor at least 1 and a non-negative (or
infinite) cap, the generated schedule is an ordered finite sequence of
non-negative durations that is monotonically non-decreasing, and each
entry is capped at the maximum value. -/
theorem schedule_monotone (r : Nat) (mn : ℚ) (mx : Option ℚ) (f : ℚ)
    (hf : 1 ≤ f) (hmx : ∀ M, mx = some M → 0 ≤ M) :
    List.Chain' (fun a b => a ≤ b) (generateTimeouts r mn mx f) ∧
    ∀ x ∈ generateTimeouts r mn mx f,
      0 ≤ x ∧ ∀ M, mx = some M → x ≤ M := by
  have h0 : (0 : ℚ) ≤ max mn 1 :=
    le_trans zero_le_one (le_max_right mn 1)
  have h1 : ∀ i : Nat, (1 : ℚ) ≤ max mn 1 * f ^ i := by
    intro i
    calc (1 : ℚ) = 1 * 1 := (one_mul 1).symm
      _ ≤ max mn 1 * f ^ i :=
        mul_le_mul (le_max_right mn 1) (one_le_pow₀ hf) zero_le_one h0
  constructor
  · rw [generateTimeouts, List.chain'_map]
    cases r with
    | zero => exact List.chain'_nil
    | succ n =>
      rw [List.chain'_range_succ]
      intro m _
      apply jsMinCap_mono
      have harg : max mn 1 * f ^ m ≤ max mn 1 * f ^ (m + 1) :=
        mul_le_mul_of_nonneg_left (pow_le_pow_right₀ hf (Nat.le_succ m)) h0
      exact_mod_cast jround_mono harg
  · intro x hx
    rw [generateTimeouts] at hx
    rcases List.mem_map.mp hx with ⟨i, _, rfl⟩
    have hge : (1 : ℤ) ≤ jround (max mn 1 * f ^ i) := by
      rw [jround_eq]
      refine Int.le_floor.mpr ?_
      push_cast
      linarith [h1 i]
    have hge0 : (0 : ℚ) ≤ (jround (max mn 1 * f ^ i) : ℚ) := by
      exact_mod_cast le_trans zero_le_one hge
    constructor
    · cases hmxc : mx with
      | none => simpa [jsMinCap] using hge0
      | some M =>
        have hM := hmx M hmxc
        simp only [jsMinCap]
        exact le_min hge0 hM
    · intro M hM
      rw [hM]
      simp only [jsMinCap]
      exact min_le_right _ _

/-- C10 witness: the amended theorem applied to a concrete schedule with
factor 6 and cap 100. -/
theorem schedule_monotone_witness :
    List.Chain' (fun a b => a ≤ b) (generateTimeouts 3 10 (some 100) 6) ∧
    ∀ x ∈ generateTimeouts 3 10 (some 100) 6,
      0 ≤ x ∧ ∀ M, some (100 : ℚ) = some M → x ≤ M :=
  schedule_monotone 3 10 (some 100) 6 (by norm_num)
    (fun M hM => by cases hM; norm_num)

/-- C2 witness: the classification behavior evaluated on four concrete
failures: an AbortError, a fatal TypeError, a transient network
TypeError, and a plain Error. -/
theorem classification_engine_witness :
    (runAux (fun _ => OpResult.err (α := Unit)
        (.abortError (.plain ⟨"orig", 0⟩))) (fun _ => none) (fun _ => 0)
        3 none 0 [] 1 [] 0 [] 0).settle =
      .rejected (.val (.plain ⟨"orig", 0⟩)) ∧
    (runAux (fun _ => OpResult.err (α := Unit) (.typeError ⟨"boom", 0⟩))
        (fun _ => none) (fun _ => 0) 3 none 0 [] 1 [] 0 [] 0).settle =
      .rejected (.val (.typeError ⟨"boom", 0⟩)) ∧
    (∃ s, (runAux (fun _ => OpResult.err (α := Unit)
        (.typeError ⟨"Failed to fetch", 0⟩)) (fun _ => none) (fun _ => 0)
        3 none 0 [] 1 [] 0 [] 0).observerCalls =
      [] ++ mkAttemptError "Failed to fetch" 1 3 :: s) ∧
    (∃ s, (runAux (fun _ => OpResult.err (α := Unit) (.plain ⟨"err", 0⟩))
        (fun _ => none) (fun _ => 0)
        3 none 0 [] 1 [] 0 [] 0).observerCalls =
      [] ++ mkAttemptError "err" 1 3 :: s) :=
  ⟨(classification_engine (fun _ => OpResult.err
      (.abortError (.plain ⟨"orig", 0⟩))) (fun _ => none) (fun _ => 0)
      3 none 0 [] 1 [] 0 [] 0).1 (.plain ⟨"orig", 0⟩) rfl,
   (classification_engine (fun _ => OpResult.err
      (.typeError ⟨"boom", 0⟩)) (fun _ => none) (fun _ => 0)
      3 none 0 [] 1 [] 0 [] 0).2.1 ⟨"boom", 0⟩ rfl (by decide),
   (classification_engine (fun _ => OpResult.err
      (.typeError ⟨"Failed to fetch", 0⟩)) (fun _ => none) (fun _ => 0)
      3 none 0 [] 1 [] 0 [] 0).2.2.1 ⟨"Failed to fetch", 0⟩ rfl
      (by decide),
   (classification_engine (fun _ => OpResult.err
      (.plain ⟨"err", 0⟩)) (fun _ => none) (fun _ => 0)
      3 none 0 [] 1 [] 0 [] 0).2.2.2 ⟨"err", 0⟩ rfl⟩

/-- C8 witness: the observer-failure theorem applied to a concrete run
in which the observer throws on the first retryable failure. -/
theorem observer_throw_rejects_witness :
    runAux (fun _ => OpResult.err (α := Unit) (.plain ⟨"boom", 0⟩))
        (fun _ => some (.plain ⟨"thrown from observer", 1⟩))
        (fun _ => 0) 3 none 0 [] 1 [] 0 [] 0 =
      ⟨.rejected (.val (.plain ⟨"thrown from observer", 1⟩)), 1,
        [mkAttemptError "boom" 1 3], [], false⟩ :=
  observer_throw_rejects (fun _ => OpResult.err (.plain ⟨"boom", 0⟩))
    (fun _ => some (.plain ⟨"thrown from observer", 1⟩)) (fun _ => 0)
    3 none 0 [] 1 [] 0 [] 0 (.plain ⟨"boom", 0⟩)
    (.plain ⟨"thrown from observer", 1⟩) rfl rfl rfl
